import Mathlib

/-!
Shallow embedding of the choose-from library (src/choice.rs, src/fixed.rs,
src/vec.rs, src/lib.rs). Rust arrays and vectors both become Lean lists;
the phantom-lifetime guard becomes a unit type, since it carries no data.
-/

namespace ChooseFrom

/-- Embeds `struct Guard;` from src/choice.rs: a unit struct with no data,
used only as the anchor of the phantom lifetime. -/
structure Guard where

/-- Embeds `Choice<'guard, T>` from src/choice.rs: a transparent wrapper
around one value. The PhantomData guard reference carries no run-time data,
so the embedding holds only the value. -/
structure Choice (T : Type) where
  value : T

/-- Embeds `Choice::with_guard` (src/choice.rs): wraps a value, tying it to
a guard. -/
def Choice.with_guard {T : Type} (value : T) (_guard : Guard) : Choice T :=
  { value := value }

/-- Embeds `Choice::into_inner` (src/choice.rs): extracts the wrapped value. -/
def Choice.into_inner {T : Type} (c : Choice T) : T :=
  c.value

/-- Embeds `impl Deref for Choice` (src/choice.rs): reading a token returns
the wrapped value. It is a pure function of the token, mirroring the
side-effect-free `&self` receiver. -/
def Choice.deref {T : Type} (c : Choice T) : T :=
  c.value

/-- Embeds `choice::to_values` (src/choice.rs): unwraps a sequence of
choices into plain values, preserving order. -/
def choice.to_values {T : Type} (choices : List (Choice T)) : List T :=
  choices.map Choice.into_inner

/-- Embeds `SelectorFixed<const N: usize, T>` (src/fixed.rs): an owned
collection of exactly N choices. -/
structure SelectorFixed (N : Nat) (T : Type) where
  choices : List T
  has_arity : choices.length = N

/-- Embeds `SelectorFixed::with_choices` (src/fixed.rs). -/
def SelectorFixed.with_choices {N : Nat} {T : Type} (choices : List T)
    (h : choices.length = N) : SelectorFixed N T :=
  { choices := choices, has_arity := h }

/-- Embeds `SelectorFixed::into_choices` (src/fixed.rs): wraps every element
in a `Choice` bound to the given guard, preserving order. -/
def SelectorFixed.into_choices {N : Nat} {T : Type} (s : SelectorFixed N T)
    (g : Guard) : List (Choice T) :=
  s.choices.map (fun t => Choice.with_guard t g)

/-- Embeds `SelectorFixed::with` (src/fixed.rs); named `with'` because
`with` is a Lean keyword. A fresh guard is created, every element is
wrapped, the chooser runs, and its returned choices are unwrapped in the
order the chooser placed them. -/
def SelectorFixed.with' {N : Nat} {T : Type} (s : SelectorFixed N T)
    (chooser : List (Choice T) → List (Choice T)) : List T :=
  (chooser (s.into_choices ⟨⟩)).map Choice.into_inner

/-- Embeds `SelectorFixed::any_with` (src/fixed.rs). -/
def SelectorFixed.any_with {N : Nat} {T : Type} (s : SelectorFixed N T)
    (chooser : List (Choice T) → List (Choice T)) : List T :=
  choice.to_values (chooser (s.into_choices ⟨⟩))

/-- Embeds `Selector<I, T>` (src/vec.rs): a runtime-sized collection of
choices; the iterator is embedded as the list of items it yields. -/
structure Selector (T : Type) where
  choices : List T

/-- Embeds `Selector::with_choices` (src/vec.rs). -/
def Selector.with_choices {T : Type} (choices : List T) : Selector T :=
  { choices := choices }

/-- Embeds `Selector::into_choices` (src/vec.rs). -/
def Selector.into_choices {T : Type} (s : Selector T) (g : Guard) :
    List (Choice T) :=
  s.choices.map (fun t => Choice.with_guard t g)

/-- Embeds `Selector::with` (src/vec.rs); named `with'` because `with` is a
Lean keyword. -/
def Selector.with' {T : Type} (s : Selector T)
    (chooser : List (Choice T) → List (Choice T)) : List T :=
  (chooser (s.into_choices ⟨⟩)).map Choice.into_inner

/-- Embeds `Selector::any_with` (src/vec.rs). Unlike the other three choose
methods, its Rust signature declares the chooser's output lifetime as a free
method parameter (`'guard`) instead of tying it to the issued tokens'
higher-ranked input lifetime, so Rust also admits well-typed choosers that
ignore the issued tokens and return tokens minted by a different call. -/
def Selector.any_with {T : Type} (s : Selector T)
    (chooser : List (Choice T) → List (Choice T)) : List T :=
  choice.to_values (chooser (s.into_choices ⟨⟩))

/-- Embeds `select_from` (src/lib.rs). -/
def select_from {T : Type} (choices : List T) : Selector T :=
  Selector.with_choices choices

/-- Embeds `select_from_fixed` (src/lib.rs): N is the length of the given
array. -/
def select_from_fixed {T : Type} (choices : List T) :
    SelectorFixed choices.length T :=
  SelectorFixed.with_choices choices rfl

/-- The guard discipline for a chooser applied to a token list cs: its
output is a permutation of a sublist of cs — every returned token is one of
the issued ones, used at most once, in any order the chooser picks. Rust
enforces this for `SelectorFixed::with`, `Selector::with` and
`SelectorFixed::any_with`, whose chooser types tie the output lifetime to
the higher-ranked input token lifetime (and `Choice` has no public
constructor and is not Clone, so tokens cannot be minted or duplicated).
It is NOT enforced for `Selector::any_with` (src/vec.rs), whose free
output lifetime admits choosers returning another call's tokens; see the
theorems evaluating that method at such a chooser. -/
def GuardedAt {T : Type} (chooser : List (Choice T) → List (Choice T))
    (cs : List (Choice T)) : Prop :=
  List.Subperm (chooser cs) cs

/-- Selection logic of the doc example in src/vec.rs and the test in
src/lib.rs: keep every other token starting at index 0 (Rust
`step_by(2)`). -/
def stepByTwo {α : Type} : List α → List α
  | [] => []
  | [c] => [c]
  | c :: _ :: rest => c :: stepByTwo rest

/-- Selection logic picking the token at index 2 then the token at index 0
out of three tokens. -/
def pick_third_then_first {α : Type} : List α → List α
  | [c0, _, c2] => [c2, c0]
  | _ => []

/- ------------------------------------------------------------------ -/
/- Helper lemmas shared by several claim theorems. -/

theorem subperm_map {α β : Type} (f : α → β) {l₁ l₂ : List α}
    (h : List.Subperm l₁ l₂) : List.Subperm (l₁.map f) (l₂.map f) := by
  obtain ⟨l, hp, hs⟩ := h
  exact ⟨l.map f, hp.map f, hs.map f⟩

theorem to_values_wrap {T : Type} (a : List T) (g : Guard) :
    (a.map (fun t => Choice.with_guard t g)).map Choice.into_inner = a := by
  induction a with
  | nil => rfl
  | cons x xs ih => simpa [Choice.with_guard, Choice.into_inner] using ih

theorem into_choices_length {T : Type} (a : List T) :
    ((select_from_fixed a).into_choices ⟨⟩).length = a.length := by
  simp [select_from_fixed, SelectorFixed.with_choices, SelectorFixed.into_choices]

/- ------------------------------------------------------------------ -/
/- Claim theorems. -/

/-- C1: for every collection a (of any size N), every guard-respecting
selection logic whose output on the issued tokens has length K, the result
of `with` (fixed and variable selector alike) has exactly K values, is a
sub-permutation of a (each value drawn from a by identity, no input value
represented more often than a contains it), and the two selectors agree. -/
theorem chooseExactly_provenance {T : Type} [DecidableEq T] {K : Nat}
    (a : List T) (chooser : List (Choice T) → List (Choice T))
    (hg : GuardedAt chooser ((select_from_fixed a).into_choices ⟨⟩))
    (hK : (chooser ((select_from_fixed a).into_choices ⟨⟩)).length = K) :
    ((select_from_fixed a).with' chooser).length = K ∧
    List.Subperm ((select_from_fixed a).with' chooser) a ∧
    (∀ x, x ∈ (select_from_fixed a).with' chooser → x ∈ a) ∧
    (∀ x, ((select_from_fixed a).with' chooser).count x ≤ a.count x) ∧
    (select_from a).with' chooser = (select_from_fixed a).with' chooser := by
  have hsub : List.Subperm ((select_from_fixed a).with' chooser) a := by
    have h := subperm_map Choice.into_inner hg
    simp only [select_from_fixed, SelectorFixed.with_choices,
      SelectorFixed.into_choices] at h
    rw [to_values_wrap] at h
    simpa [SelectorFixed.with', select_from_fixed, SelectorFixed.with_choices,
      SelectorFixed.into_choices] using h
  refine ⟨?_, hsub, fun x hx => hsub.subset hx, fun x => hsub.count_le x, rfl⟩
  simp [SelectorFixed.with', hK]

/-- C1 witness: choosing the first two tokens out of [10, 20, 30]. -/
theorem chooseExactly_provenance_instance :
    ((select_from_fixed [10, 20, 30]).with' (fun cs => cs.take 2)).length = 2 :=
  (chooseExactly_provenance [10, 20, 30] (fun cs => cs.take 2)
    ((List.take_sublist 2 _).subperm) rfl).1

/-- C2 fails on the code: `Selector::any_with` (src/vec.rs) declares its
chooser's output lifetime as a free method parameter, so a well-typed Rust
chooser may ignore the issued tokens and return tokens minted by an
enclosing call. Evaluating the embedding at such a chooser: a call on the
two-element collection [10, 20] returns [1, 2, 3] — three values, more than
its input size, none of them drawn from its input — contradicting the claim
that `any_with` returns 0..N values each drawn from the input. -/
theorem selector_any_with_returns_foreign_values :
    (select_from [10, 20]).any_with
        (fun _ => (select_from [1, 2, 3]).into_choices ⟨⟩) = [1, 2, 3] ∧
    ((select_from [10, 20]).any_with
        (fun _ => (select_from [1, 2, 3]).into_choices ⟨⟩)).length >
      ([10, 20] : List Nat).length ∧
    ∀ x ∈ (select_from [10, 20]).any_with
        (fun _ => (select_from [1, 2, 3]).into_choices ⟨⟩),
      x ∉ ([10, 20] : List Nat) := by
  refine ⟨rfl, by decide, by decide⟩

/-- C3 counterexample: requesting K = 5 from the 3-element input [1, 2, 3]
never raises an ArityError — no such error type or pre-invocation check
exists in the library, and `with` invokes the chooser unconditionally.
Formally: no guard-respecting selection logic (that is, none that returns
normally) yields 5 of the 3 issued tokens, so the claimed path (ArityError
raised before selection logic runs) does not exist; in Rust a K = 5 chooser
can be written and is invoked, but can only panic or diverge. -/
theorem arity_five_from_three_no_returning_chooser :
    ¬ ∃ chooser : List (Choice Nat) → List (Choice Nat),
      GuardedAt chooser ((select_from_fixed [1, 2, 3]).into_choices ⟨⟩) ∧
      (chooser ((select_from_fixed [1, 2, 3]).into_choices ⟨⟩)).length = 5 := by
  rintro ⟨chooser, hg, h5⟩
  have hle := hg.length_le
  rw [h5, into_choices_length] at hle
  simp at hle

/-- C3 amended: the library defines no ArityError and checks nothing before
invoking the selection logic; an arity violation K > N can never yield a
normally-returned result instead: every selection logic that returns at all
respects the guard discipline and so returns at most N tokens, hence `with`
never produces more than N values (fixed and variable selector alike), and
a K > N call can only fail by panic or divergence inside the invoked
selection logic. -/
theorem with_output_length_le {T : Type} (a : List T)
    (chooser : List (Choice T) → List (Choice T))
    (hg : GuardedAt chooser ((select_from_fixed a).into_choices ⟨⟩)) :
    ((select_from_fixed a).with' chooser).length ≤ a.length ∧
    ((select_from a).with' chooser).length ≤ a.length := by
  have hle := hg.length_le
  rw [into_choices_length] at hle
  constructor <;> simpa [SelectorFixed.with', Selector.with', select_from,
    select_from_fixed, SelectorFixed.with_choices, Selector.with_choices,
    SelectorFixed.into_choices, Selector.into_choices] using hle

/-- C3 amended witness: a two-token selection out of three values. -/
theorem with_output_length_le_instance :
    ((select_from_fixed [1, 2, 3]).with' (fun cs => cs.take 2)).length ≤ 3 :=
  (with_output_length_le [1, 2, 3] (fun cs => cs.take 2)
    ((List.take_sublist 2 _).subperm)).1

/-- C5 fails on the code through the same hole as C2: a token obtained
during call A (on collection [7, 8]) is returned by call B's selection
logic (`Selector::any_with` on collection [100], invoked while call A's
tokens are alive), and call B succeeds, returning call A's values — instead
of failing at build time or with a ProvenanceViolation as claimed. The free
output lifetime of `Selector::any_with` makes the reuse well-typed in Rust,
and no runtime provenance check exists. -/
theorem cross_call_token_reuse_succeeds :
    (select_from [100]).any_with
        (fun _ => (select_from [7, 8]).into_choices ⟨⟩) = [7, 8] ∧
    ∀ x ∈ (select_from [100]).any_with
        (fun _ => (select_from [7, 8]).into_choices ⟨⟩),
      x ∉ ([100] : List Nat) := by
  refine ⟨rfl, by decide⟩

/-- C4: the order of the returned plain values equals the order in which
the selection logic placed the tokens, not the input order: selecting the
tokens at indices 2 then 0 out of three inputs yields
[input at 2, input at 0], for `with` and `any_with` alike. -/
theorem output_order_matches_selection {T : Type} (x0 x1 x2 : T) :
    (select_from_fixed [x0, x1, x2]).with' pick_third_then_first = [x2, x0] ∧
    (select_from_fixed [x0, x1, x2]).any_with pick_third_then_first = [x2, x0] :=
  ⟨rfl, rfl⟩

/-- C7: reading a token (the Deref impl) returns the wrapped value, agrees
with what extraction would yield, and leaves the token unchanged (rewrapping
the read value reproduces the token), so any number of reads of a valid
token observe the same value. -/
theorem choice_read_observational {T : Type} :
    ∀ (g : Guard) (v : T) (c : Choice T),
      Choice.deref (Choice.with_guard v g) = v ∧
      Choice.deref c = c.value ∧
      Choice.deref c = Choice.into_inner c ∧
      Choice.with_guard (Choice.deref c) g = c :=
  fun _ _ _ => ⟨rfl, rfl, rfl, rfl⟩

/-- C8: the concrete scenarios: chooseExactly on [1, 2, 3, 4] taking the
tokens at indices 0 and 1 yields [1, 2]; chooseAny on the three greeting
strings taking every other token starting at index 0 yields the first and
third string. -/
theorem concrete_scenarios_eval :
    (select_from_fixed [1, 2, 3, 4]).with' (fun cs => cs.take 2) = [1, 2] ∧
    (select_from_fixed ["Hi", "how", "are ya?"]).any_with stepByTwo =
      ["Hi", "are ya?"] :=
  ⟨rfl, rfl⟩

/-- C9: round-trip identity: unwrapping a freshly wrapped value returns the
value unchanged, and `with` under the identity selection logic returns the
original collection in its original order. -/
theorem unwrap_wrap_roundtrip {T : Type} :
    (∀ (g : Guard) (v : T), Choice.into_inner (Choice.with_guard v g) = v) ∧
    ∀ (a : List T), (select_from_fixed a).with' (fun cs => cs) = a := by
  refine ⟨fun _ _ => rfl, fun a => ?_⟩
  simp only [SelectorFixed.with', select_from_fixed, SelectorFixed.with_choices,
    SelectorFixed.into_choices]
  exact to_values_wrap a ⟨⟩

/-- C10: determinism: the outputs of `with` and `any_with` are functions of
the collection and the selection logic alone — equal collections and equal
choosers give equal outputs, with no hidden state, and the fixed and
variable selectors agree on the same collection. -/
theorem choose_deterministic {T : Type} (a b : List T)
    (c₁ c₂ : List (Choice T) → List (Choice T))
    (hab : a = b) (hc : c₁ = c₂) :
    (select_from_fixed a).with' c₁ = (select_from_fixed b).with' c₂ ∧
    (select_from_fixed a).any_with c₁ = (select_from_fixed b).any_with c₂ ∧
    (select_from a).with' c₁ = (select_from b).with' c₂ ∧
    (select_from a).any_with c₁ = (select_from b).any_with c₂ ∧
    (select_from a).with' c₁ = (select_from_fixed a).with' c₁ ∧
    (select_from a).any_with c₁ = (select_from_fixed a).any_with c₁ := by
  subst hab
  subst hc
  exact ⟨rfl, rfl, rfl, rfl, rfl, rfl⟩

/-- C10 witness: two runs on the same collection with the same chooser. -/
theorem choose_deterministic_instance :
    (select_from_fixed [1, 2]).with' (fun cs => cs.take 1) =
      (select_from_fixed [1, 2]).with' (fun cs => cs.take 1) :=
  (choose_deterministic [1, 2] [1, 2] (fun cs => cs.take 1)
    (fun cs => cs.take 1) rfl rfl).1

end ChooseFrom
